import Mathlib

/-!
# Verification of `scripts/run_scripts.py`

A shallow embedding of the benchmark-orchestration harness
`src/scripts/run_scripts.py`: configuration-driven argument expansion,
subprocess execution with environment injection, regex-based
result/error extraction, and CSV report aggregation.

Modelling conventions:
* Python dicts that come from JSON objects (argument sets, `env`,
  pattern maps) are association lists in insertion order with distinct
  keys.
* A compiled regular expression together with `re.search` + `.group(1)`
  is abstracted as a function `String → Option String` (the patterns are
  configuration inputs; no claim depends on concrete regex semantics,
  except for the literal regex `^\d+\.\d+$` inside `parse_output`, which
  is modelled exactly).
* `subprocess.run(["python", script_path] + args, ...)` is abstracted as
  an oracle receiving the script path, the argument vector and the
  ambient environment at call time; it either completes with an exit
  code, stdout and stderr, or fails at the OS level (e.g. the `python`
  interpreter is missing), which in Python raises an `OSError` that the
  code does not catch.
* Python exceptions escaping a function are modelled with `Except`.
-/

namespace RunScripts

/-- One entry of the `scripts` array of the scripts document. -/
structure ScriptSpec where
  name : String
  path : String
  default_arguments : List String
  extra_arguments : List (List (String × String))
  env : List (String × String)
  deriving Repr, DecidableEq

/-- A named extraction pattern: `re.search(pattern, text)` followed by
`.group(1)`, abstracted as a partial capture function. -/
def Pattern : Type := String → Option String

/-- The two configuration documents after JSON loading. -/
structure Config where
  scripts : List ScriptSpec
  result_patterns : List (String × Pattern)
  error_patterns : List (String × Pattern)

/-- The ambient process environment (`os.environ`), as an association
list in insertion order. -/
def Env : Type := List (String × String)

instance : DecidableEq Env := by
  unfold Env
  infer_instance

/-- Model of `os.environ[key] = value`: overwrite in place if the key is present,
append otherwise. -/
def envSet : Env → String → String → Env
  | [], k, v => [(k, v)]
  | (k', v') :: rest, k, v =>
    if k' = k then (k, v) :: rest else (k', v') :: envSet rest k v

/-- Dictionary lookup in the ambient environment. -/
def envGet : Env → String → Option String
  | [], _ => none
  | (k', v') :: rest, k => if k' = k then some v' else envGet rest k

/-- The loop `for key, value in env.items(): os.environ[key] = value`
(the `if env:` guard is a no-op for the empty list). -/
def applyEnv (env : List (String × String)) (ambient : Env) : Env :=
  env.foldl (fun a kv => envSet a kv.1 kv.2) ambient

/-- Outcome of one `subprocess.run` call: either the child process ran
to completion (any exit code), or the spawn itself failed at the OS
level (`FileNotFoundError`, `PermissionError`, ...). -/
inductive ExecResult where
  | completed (exitCode : Nat) (stdout stderr : String)
  | oserror (msg : String)
  deriving Repr, DecidableEq

/-- Returns `true` iff the child process was spawned and ran to completion. -/
def ExecResult.isCompleted : ExecResult → Bool
  | .completed _ _ _ => true
  | .oserror _ => false

/-- Abstraction of `subprocess.run(["python", script_path] + args, ...)`:
the behaviour of the external world given the script path, the argument
vector and the ambient environment at the time of the call. -/
def ExecOracle : Type := String → List String → Env → ExecResult

/-- Model of `run_script_with_args(script_path, args, env)` from
`run_scripts.py` lines 10-32, with the ambient environment threaded
explicitly.  The env overlay is written into the ambient environment
(`os.environ[key] = value`, never restored).  `check=True` turns a
non-zero exit into a `CalledProcessError`, which is caught and
normalized to `(None, e.stderr)`; a zero exit returns
`(result.stdout, result.stderr)`.  OS-level spawn failures are not
caught and escape as an exception (`Except.error`). -/
def run_script_with_args (exec : ExecOracle) (script_path : String)
    (args : List String) (env : List (String × String)) (ambient : Env) :
    Except String ((Option String × Option String) × Env) :=
  let amb2 := applyEnv env ambient
  match exec script_path args amb2 with
  | .completed code out err =>
    if code = 0 then .ok ((some out, some err), amb2)
    else .ok ((none, some err), amb2)
  | .oserror msg => .error msg

/-! ## The numeric normalization inside `parse_output`

Lines 50-54 of the source:

    value = match.group(1)
    if the value matches the regex (digits, point, digits, anchored):
        value = str(round(float(value), 2))

The `float`, `round` and `str` steps are modelled exactly over
nonnegative rationals: a Python `float` is either the nearest IEEE
binary64 value, represented as the exact rational it denotes (with
round-to-nearest/even, subnormal precision clamping, and overflow to
infinity), or positive infinity; `str` renders the shortest
round-tripping digits in fixed or scientific notation following
CPython's exponent threshold.  The regex `^\d+\.\d+$` is modelled for
strings of ASCII characters: Python's `\d` additionally matches
non-ASCII Unicode decimal digits (category Nd), whose table is not
reproduced here, so the statements about pass-through are scoped to
ASCII captures. -/

/-- Nonnegative rationals as unreduced numerator/denominator pairs
(denominator positive by construction); value equality and order are by
cross-multiplication, so no gcd normalization is ever needed and every
operation is plain natural-number arithmetic. -/
def PRat : Type := Nat × Nat

/-- Value equality of fractions. -/
def pEq (x y : PRat) : Bool := x.1 * y.2 == y.1 * x.2

/-- Value order of fractions: strict. -/
def pLt (x y : PRat) : Bool := x.1 * y.2 < y.1 * x.2

/-- Value order of fractions: non-strict. -/
def pLe (x y : PRat) : Bool := x.1 * y.2 ≤ y.1 * x.2

/-- Scale a fraction by `2 ^ k` for an integer `k` (exact). -/
def pScale2 (q : PRat) (k : Int) : PRat :=
  match k with
  | .ofNat n => (q.1 * 2 ^ n, q.2)
  | .negSucc n => (q.1, q.2 * 2 ^ (n + 1))

/-- Scale a fraction by `10 ^ k` for an integer `k` (exact). -/
def pScale10 (q : PRat) (k : Int) : PRat :=
  match k with
  | .ofNat n => (q.1 * 10 ^ n, q.2)
  | .negSucc n => (q.1, q.2 * 10 ^ (n + 1))

/-- Round a nonnegative fraction to the nearest natural, ties to even
(the rounding used both by binary64 and by CPython float `round`):
compare twice the remainder with the denominator. -/
def roundHalfEvenPos (q : PRat) : Nat :=
  let f := q.1 / q.2
  let r := q.1 % q.2
  if 2 * r < q.2 then f
  else if q.2 < 2 * r then f + 1
  else if f % 2 = 0 then f else f + 1

/-- Floor of the base-2 logarithm of a natural number, by structural
recursion (the fuel, consumed lazily, is the number itself, which always
suffices). -/
def log2Aux : Nat → Nat → Nat
  | 0, _ => 0
  | fuel + 1, n => if n ≤ 1 then 0 else log2Aux fuel (n / 2) + 1

/-- Floor of the base-2 logarithm (0 at 0). -/
def log2F (n : Nat) : Nat := log2Aux n n

/-- Binary exponent of a positive fraction: the `e` with
`2 ^ e ≤ q < 2 ^ (e + 1)`, exact for every positive input.  For
`q ≥ 1` it is the floor log2 of the integer part; for `q < 1` it is
`-e'` when `q` is exactly `2 ^ -e'` (with `e'` the floor log2 of the
reciprocal's integer part) and `-e' - 1` otherwise. -/
def binade (q : PRat) : Int :=
  if q.2 ≤ q.1 then Int.ofNat (log2F (q.1 / q.2))
  else
    let e := log2F (q.2 / q.1)
    if q.1 * 2 ^ e = q.2 then -(e : Int) else -(e : Int) - 1

/-- Decimal exponent finder: returns `e` with `10 ^ e ≤ q < 10 ^ (e + 1)`
for positive `q` whose decimal exponent is within `±400` — in
particular for every positive finite binary64 value (decimal exponents
in `[-324, 309)`), which is the only kind of value passed to it. -/
def decadeAux : Nat → PRat → Int → Int
  | 0, _, e => e
  | fuel + 1, q, e =>
    if pLt q (1, 1) then decadeAux fuel (q.1 * 10, q.2) (e - 1)
    else if pLe (10, 1) q then decadeAux fuel (q.1, q.2 * 10) (e + 1)
    else e

/-- Decimal exponent of a positive fraction (domain: see `decadeAux`). -/
def decade (q : PRat) : Int := decadeAux 400 q 0

/-- A nonnegative Python float value: a finite binary64 value given as
the exact rational it denotes, or positive infinity. -/
inductive PFloat where
  | finite (q : PRat)
  | inf

/-- Equality between a float and a finite value. -/
def pEqF (x : PFloat) (y : PRat) : Bool :=
  match x with
  | .finite v => pEq v y
  | .inf => false

/-- The IEEE binary64 value nearest to a nonnegative rational, with
round-to-nearest ties-to-even: scale by `2 ^ (52 - e)` so that a normal
value's mantissa lands in `[2^52, 2^53)` — except below the normal range,
where the scale is clamped to `2 ^ 1074` (subnormal precision) — round,
and scale back; a rounded value at or above `2 ^ 1024` overflows to
infinity.  This is what `float(<literal>)` produces (CPython string
conversion is correctly rounded). -/
def nearestDouble (q : PRat) : PFloat :=
  if q.1 = 0 then .finite (0, 1)
  else
    let e := binade q
    let k : Int := if e < -1022 then 1074 else 52 - e
    let v : PRat := pScale2 (roundHalfEvenPos (pScale2 q k), 1) (-k)
    if pLe (2 ^ 1024, 1) v then .inf else .finite v

/-- CPython `round(d, 2)` on a float `d ≥ 0`: a finite value is rounded
to the nearest multiple of `1/100` (ties to even, on the exact binary64
value) and the result is again a float, i.e. the nearest binary64 to
that decimal; an infinite value is returned unchanged. -/
def pyRound2 (d : PFloat) : PFloat :=
  match d with
  | .inf => .inf
  | .finite q => nearestDouble (roundHalfEvenPos (q.1 * 100, q.2), 100)

/-- Decimal digits of a natural number, most significant first. -/
def natDigitsAux : Nat → Nat → List Char
  | 0, _ => []
  | fuel + 1, n =>
    if n = 0 then []
    else natDigitsAux fuel (n / 10) ++ [Char.ofNat (48 + n % 10)]

/-- Decimal digit characters of a natural number. -/
def natDigits (n : Nat) : List Char :=
  if n = 0 then ['0'] else natDigitsAux 40 n

/-- Render the value `M * 10 ^ p` in fixed decimal notation the way
CPython formats a float from its shortest digits: an integral value
gets a trailing `.0`, otherwise the decimal point is inserted into the
digit string (with leading zeros as needed). -/
def formatFixed (M : Nat) (p : Int) : String :=
  let ds := natDigits M
  if 0 ≤ p then
    String.mk (ds ++ List.replicate p.toNat '0' ++ ['.', '0'])
  else
    let t := (-p).toNat
    if t < ds.length then
      String.mk (ds.take (ds.length - t) ++ ['.'] ++ ds.drop (ds.length - t))
    else
      String.mk (['0', '.'] ++ List.replicate (t - ds.length) '0' ++ ds)

/-- Render shortest digits `ds` with decimal exponent `e10` in CPython
scientific notation: one leading digit, a point and the remaining
digits when there are any, then `e`, the exponent sign, and the
exponent padded to at least two digits (`1e+16`, `1.5e+16`, `5e-324`). -/
def formatSci (ds : List Char) (e10 : Int) : String :=
  let mant :=
    match ds with
    | [] => ['0']
    | [c] => [c]
    | c :: rest => c :: '.' :: rest
  let sign := if e10 < 0 then '-' else '+'
  let eds := natDigits e10.natAbs
  let eds := if eds.length < 2 then '0' :: eds else eds
  String.mk (mant ++ 'e' :: sign :: eds)

/-- Round a positive double `d` to `n` significant decimal digits
(ties to even); returns the digit mantissa and the decimal exponent `p`
such that the result denotes `M * 10 ^ p`. -/
def roundSig (n : Nat) (d : PRat) : Nat × Int :=
  let e := decade d
  let p : Int := e - n + 1
  (roundHalfEvenPos (pScale10 d (-p)), p)

/-- Shortest-round-trip digit search of CPython float `repr`/`str`:
try 1, 2, ... significant digits and keep the first decimal that reads
back (nearest/even) to exactly `d`. -/
def shortestSigAux (d : PRat) : Nat → Nat → Nat × Int
  | n, 0 => roundSig n d
  | n, fuel + 1 =>
    let c := roundSig n d
    if pEqF (nearestDouble (pScale10 (c.1, 1) c.2)) d then c
    else shortestSigAux d (n + 1) fuel

/-- CPython `str` of a nonnegative float: `inf` for infinity, else the
shortest digit string that round-trips, rendered in fixed notation when
the decimal exponent `e10` of the rendered digits satisfies
`-4 ≤ e10 ≤ 15` (CPython's threshold: fixed iff `-4 < decpt ≤ 16` with
`decpt = e10 + 1`) and in scientific notation otherwise. -/
def pyStr (d : PFloat) : String :=
  match d with
  | .inf => "inf"
  | .finite q =>
    if q.1 = 0 then "0.0"
    else
      let c := shortestSigAux q 1 16
      let e10 : Int := c.2 + (natDigits c.1).length - 1
      if -4 ≤ e10 ∧ e10 ≤ 15 then formatFixed c.1 c.2
      else formatSci (natDigits c.1) e10

/-- Decision of whether every character of a string is ASCII; on such
strings the regex model below agrees with Python exactly. -/
def isAsciiStr (s : String) : Bool := s.data.all (fun c => c.toNat < 128)

/-- Body of the regex `^\d+\.\d+$` without the anchors: one or more
digits, a point, one or more digits, and nothing else.  `\d` is
modelled as ASCII `0-9`; Python's `\d` additionally matches non-ASCII
Unicode decimal digits, so this model (and the statements built on it)
is scoped to ASCII strings, where the two agree. -/
def isDecimalCore (l : List Char) : Bool :=
  let p := l.span Char.isDigit
  match p.2 with
  | '.' :: rest =>
    let q := rest.span Char.isDigit
    !p.1.isEmpty && !q.1.isEmpty && q.2.isEmpty
  | _ => false

/-- Model of `re.match` with the regex `^\d+\.\d+$` on ASCII strings:
anchored at the start, and `$` matches at the end of the string or just
before one trailing newline. -/
def reMatchDecimal (s : String) : Bool :=
  isDecimalCore s.data ||
    (s.data.getLast? = some '\n' && isDecimalCore s.data.dropLast)

/-- Numeric value of a digit string. -/
def digitsToNat (l : List Char) : Nat :=
  l.foldl (fun a c => a * 10 + (c.toNat - 48)) 0

/-- Exact rational value of a matched decimal literal (Python `float()`
strips surrounding whitespace, hence the trailing newline is dropped
first). -/
def decimalValue (s : String) : PRat :=
  let l := if s.data.getLast? = some '\n' then s.data.dropLast else s.data
  let p := l.span Char.isDigit
  match p.2 with
  | '.' :: rest =>
    let q := rest.span Char.isDigit
    (digitsToNat p.1 * 10 ^ q.1.length + digitsToNat q.1, 10 ^ q.1.length)
  | _ => (0, 1)

/-- Lines 50-54: a captured value matching `^\d+\.\d+$` is replaced by
`str(round(float(value), 2))`; everything else is kept as is. -/
def normalizeValue (value : String) : String :=
  if reMatchDecimal value then
    pyStr (pyRound2 (nearestDouble (decimalValue value)))
  else value

/-- Model of `parse_output(output, patterns)` from lines 35-55: apply each named
pattern in configured order, keep the (normalized) first capture of the
patterns that match; non-matching patterns are absent.  The Python dict
in insertion order is an association list (pattern names are JSON object
keys, hence distinct). -/
def parse_output (output : String)
    (patterns : List (String × Pattern)) : List (String × String) :=
  patterns.foldl
    (fun acc p =>
      match p.2 output with
      | some v => acc ++ [(p.1, normalizeValue v)]
      | none => acc)
    []

/-- Lines 123-127: start from (a copy of) `default_arguments` and, for
each key/value pair of the extra-argument set in iteration order, append
the flag token `--<key>`, then append the value token unless it is the
empty string (`if value and value != ""`; for JSON string values both
conjuncts mean "non-empty"). -/
def buildArguments (defaults : List String)
    (extra : List (String × String)) : List String :=
  extra.foldl
    (fun acc kv =>
      let acc := acc ++ ["--" ++ kv.1]
      if kv.2 = "" then acc else acc ++ [kv.2])
    defaults

/-! ## The orchestrator (`main`, lines 59-178)

Configuration loading is abstracted: `main` is modelled from the point
where both JSON documents are available, and the top-level command adds
the load step (`runTop`).  Console progress prints are not modelled
except for the skip warning, which claims refer to.  CSV serialization
is modelled as the list of rows handed to `csv_writer.writerow` (the
header first, then one list of cells per emitted row). -/

/-- Python truthiness of an optional string (`if output:` /
`if error:`): `None` and the empty string are falsy. -/
def strOptTruthy : Option String → Bool
  | none => false
  | some s => !s.isEmpty

/-- Dictionary `get(key, default)` on an association list. -/
def lookupD (l : List (String × String)) (k : String) (d : String) : String :=
  match l.find? (fun p => p.1 == k) with
  | some p => p.2
  | none => d

/-- Line 147: `"; ".join(f"{name}: {message}" for ...)` over the matched
error patterns. -/
def errorJoin (ms : List (String × String)) : String :=
  String.intercalate "; " (ms.map fun p => p.1 ++ ": " ++ p.2)

/-- Lines 135-150 (and the identical 160-175): assemble one result row.
`extraRow` is the already-built list of dynamic-argument cells.  If the
captured output is truthy the result columns are filled from
`parse_output`, else with empty strings.  If the captured error text is
truthy, one `Error` cell with the joined matches is appended; otherwise
the source executes `result_row.extend("")`, which extends the row by
the characters of an empty string, i.e. appends nothing at all. -/
def buildRow (script_name : String) (extraRow : List String)
    (rp ep : List (String × Pattern))
    (output error : Option String) : List String :=
  let r1 := script_name :: extraRow
  let r2 :=
    if strOptTruthy output then
      r1 ++ rp.map (fun p => lookupD (parse_output (output.getD "") rp) p.1 "")
    else r1 ++ List.replicate rp.length ""
  if strOptTruthy error then
    r2 ++ [errorJoin (parse_output (error.getD "") ep)]
  else r2

/-- Lines 88-94: the union of all `extra_arguments` keys across all
scripts (a Python `set`), then `sorted(...)`: the distinct keys in
ascending string order. -/
def sortedExtraKeys (scripts : List ScriptSpec) : List String :=
  ((scripts.flatMap fun s =>
      s.extra_arguments.flatMap fun ex => ex.map Prod.fst).dedup).insertionSort
    (fun a b => a ≤ b)

/-- The warning printed at line 116. -/
def noDefaultsWarning (name : String) : String :=
  "Warning: No default arguments provided for script '" ++ name ++ "'"

/-- State threaded through the main loop: the ambient environment
(mutated by `run_script_with_args`), the rows written to the CSV so far,
and the warnings printed so far. -/
structure MainState where
  ambient : Env
  rows : List (List String)
  warnings : List String
  deriving DecidableEq

/-- Result of the script-processing loop: either it finished, or an
uncaught exception aborted it (the rows already written remain in the
CSV file). -/
inductive LoopOutcome where
  | finished (st : MainState)
  | crashed (msg : String) (st : MainState)
  deriving DecidableEq

/-- Lines 120-153: the sweep loop of one script — for each
extra-argument set, build the argument vector and the dynamic-argument
cells, run the script, and append the assembled row. -/
def processSweeps (exec : ExecOracle) (rp ep : List (String × Pattern))
    (keys : List String) (script : ScriptSpec) :
    List (List (String × String)) → MainState → LoopOutcome
  | [], st => .finished st
  | ex :: rest, st =>
    match run_script_with_args exec script.path
        (buildArguments script.default_arguments ex) script.env st.ambient with
    | .error m => .crashed m st
    | .ok ((out, err), amb2) =>
      let row := buildRow script.name (keys.map fun k => lookupD ex k "")
        rp ep out err
      processSweeps exec rp ep keys script rest
        { ambient := amb2, rows := st.rows ++ [row], warnings := st.warnings }

/-- Lines 99-178, body for one script: skip (with a warning) when
`default_arguments` is empty; otherwise run once per extra-argument set,
or exactly once with the default arguments when there are none. -/
def processScript (exec : ExecOracle) (rp ep : List (String × Pattern))
    (keys : List String) (script : ScriptSpec) (st : MainState) : LoopOutcome :=
  if script.default_arguments.isEmpty then
    .finished { st with warnings := st.warnings ++ [noDefaultsWarning script.name] }
  else if script.extra_arguments.isEmpty then
    match run_script_with_args exec script.path script.default_arguments
        script.env st.ambient with
    | .error m => .crashed m st
    | .ok ((out, err), amb2) =>
      .finished
        { ambient := amb2
          rows := st.rows ++
            [buildRow script.name (List.replicate keys.length "") rp ep out err]
          warnings := st.warnings }
  else
    processSweeps exec rp ep keys script script.extra_arguments st

/-- The `for script in scripts:` loop, threading the state. -/
def runScripts (exec : ExecOracle) (rp ep : List (String × Pattern))
    (keys : List String) : List ScriptSpec → MainState → LoopOutcome
  | [], st => .finished st
  | s :: rest, st =>
    match processScript exec rp ep keys s st with
    | .finished st2 => runScripts exec rp ep keys rest st2
    | .crashed m st2 => .crashed m st2

/-- Everything `main` leaves behind: the header row, the emitted result
rows, the warnings, the final ambient environment, and the message of
the uncaught exception if one aborted the loop. -/
structure RunResult where
  header : List String
  rows : List (List String)
  warnings : List String
  ambient : Env
  crashMsg : Option String

/-- Model of `main` after configuration loading (lines 84-178): compute
the column schema from the configuration, write the header, then process
every script in order. -/
def runMain (exec : ExecOracle) (cfg : Config) (ambient0 : Env) : RunResult :=
  let keys := sortedExtraKeys cfg.scripts
  let header :=
    ["Model"] ++ keys ++ cfg.result_patterns.map Prod.fst ++ ["Error"]
  match runScripts exec cfg.result_patterns cfg.error_patterns keys
      cfg.scripts ⟨ambient0, [], []⟩ with
  | .finished st => ⟨header, st.rows, st.warnings, st.ambient, none⟩
  | .crashed m st => ⟨header, st.rows, st.warnings, st.ambient, some m⟩

/-- The command surface: configuration loading followed by `main`, with
the process exit status.  A failed load (missing or malformed JSON
document) is an uncaught exception before `main`'s work starts: exit
status 1 and no report.  An uncaught exception inside the loop also
exits with status 1; plain completion exits with status 0. -/
def runTop (exec : ExecOracle) (load : Except String Config)
    (ambient0 : Env) : Option RunResult × Nat :=
  match load with
  | .error _ => (none, 1)
  | .ok cfg =>
    let r := runMain exec cfg ambient0
    (some r, match r.crashMsg with | some _ => 1 | none => 0)

/-! ## Concrete instances used in counterexamples and witnesses -/

/-- An oracle for which every spawn succeeds instantly: exit code 0,
empty stdout and stderr. -/
def noopOracle : ExecOracle := fun _ _ _ => .completed 0 "" ""

/-- An oracle for which every spawn succeeds with non-empty stdout and
empty stderr. -/
def quietOracle : ExecOracle := fun _ _ _ => .completed 0 "out" ""

/-- An oracle modelling a missing `python` interpreter: `subprocess.run`
raises `FileNotFoundError` before a child process exists. -/
def oserrOracle : ExecOracle := fun _ _ _ =>
  .oserror "FileNotFoundError: No such file or directory: 'python'"

/-- A one-script configuration: defaults present, no extra arguments,
one result pattern that never matches, no error patterns. -/
def cfg1 : Config :=
  { scripts := [⟨"m", "p", ["a"], [], []⟩]
    result_patterns := [("lat", fun _ => none)]
    error_patterns := [] }

/-- The property that every spawn the oracle can see runs to completion
(no OS-level launch failure anywhere). -/
def completesAlways (exec : ExecOracle) : Prop :=
  ∀ p args amb, (exec p args amb).isCompleted = true

/-! ## Helper lemmas -/

theorem envGet_envSet_self (e : Env) (k v : String) :
    envGet (envSet e k v) k = some v := by
  induction e with
  | nil => simp [envSet, envGet]
  | cons hd tl ih =>
    obtain ⟨a, b⟩ := hd
    by_cases h : a = k
    · simp [envSet, envGet, h]
    · simp [envSet, envGet, h, ih]

theorem envGet_envSet_other (e : Env) (k v k' : String) (h : k' ≠ k) :
    envGet (envSet e k v) k' = envGet e k' := by
  have h' : ¬(k = k') := fun hh => h hh.symm
  induction e with
  | nil => simp [envSet, envGet, h']
  | cons hd tl ih =>
    obtain ⟨a, b⟩ := hd
    by_cases hk : a = k
    · subst hk
      simp [envSet, envGet, h']
    · simp [envSet, envGet, hk, ih]

theorem applyEnv_get_not_mem (env : List (String × String)) :
    ∀ (amb : Env) (k : String), (∀ kv ∈ env, kv.1 ≠ k) →
      envGet (applyEnv env amb) k = envGet amb k := by
  induction env with
  | nil => intro amb k _; rfl
  | cons hd tl ih =>
    intro amb k h
    have step : applyEnv (hd :: tl) amb = applyEnv tl (envSet amb hd.1 hd.2) := rfl
    rw [step, ih (envSet amb hd.1 hd.2) k (fun kv hkv => h kv (List.mem_cons_of_mem _ hkv)),
      envGet_envSet_other]
    exact fun hh => h hd (List.mem_cons_self _ _) hh.symm

theorem applyEnv_get_mem (env : List (String × String)) :
    ∀ (amb : Env) (kv : String × String), kv ∈ env →
      (env.map Prod.fst).Nodup →
      envGet (applyEnv env amb) kv.1 = some kv.2 := by
  induction env with
  | nil => intro _ kv h; exact absurd h (List.not_mem_nil kv)
  | cons hd tl ih =>
    intro amb kv hmem hnd
    have step : applyEnv (hd :: tl) amb = applyEnv tl (envSet amb hd.1 hd.2) := rfl
    rw [List.map_cons, List.nodup_cons] at hnd
    rcases List.mem_cons.mp hmem with heq | htl
    · subst heq
      rw [step, applyEnv_get_not_mem tl (envSet amb kv.1 kv.2) kv.1 ?_,
        envGet_envSet_self]
      intro kv' hkv' hfst
      exact hnd.1 (hfst ▸ List.mem_map_of_mem Prod.fst hkv')
    · rw [step]
      exact ih (envSet amb hd.1 hd.2) kv htl hnd.2

theorem buildRow_shape (n : String) (er : List String)
    (rp ep : List (String × Pattern)) (o e : Option String) :
    ∃ t, buildRow n er rp ep o e = (n :: er) ++ t := by
  unfold buildRow
  by_cases h1 : strOptTruthy o <;> by_cases h2 : strOptTruthy e <;>
    simp [h1, h2]

theorem run_script_with_args_ok (exec : ExecOracle)
    (h : completesAlways exec) (p : String) (args : List String)
    (env : List (String × String)) (amb : Env) :
    ∃ out err, run_script_with_args exec p args env amb =
      .ok ((out, err), applyEnv env amb) := by
  have hx := h p args (applyEnv env amb)
  unfold run_script_with_args
  cases hexec : exec p args (applyEnv env amb) with
  | completed code o e =>
    by_cases hc : code = 0
    · exact ⟨some o, some e, by simp [hexec, hc]⟩
    · exact ⟨none, some e, by simp [hexec, hc]⟩
  | oserror m =>
    rw [hexec] at hx
    simp [ExecResult.isCompleted] at hx

theorem processSweeps_finished (exec : ExecOracle)
    (rp ep : List (String × Pattern)) (keys : List String)
    (script : ScriptSpec) (h : completesAlways exec) :
    ∀ (l : List (List (String × String))) (st : MainState),
      ∃ amb2 newRows,
        processSweeps exec rp ep keys script l st =
          .finished ⟨amb2, st.rows ++ newRows, st.warnings⟩ ∧
        newRows.length = l.length ∧
        ∀ r ∈ newRows, ∃ t, r = script.name :: t := by
  intro l
  induction l with
  | nil =>
    intro st
    exact ⟨st.ambient, [], by simp [processSweeps], by simp, by simp⟩
  | cons ex rest ih =>
    intro st
    obtain ⟨out, err, hrun⟩ := run_script_with_args_ok exec h script.path
      (buildArguments script.default_arguments ex) script.env st.ambient
    obtain ⟨amb3, rows', hrec, hlen, hshape⟩ :=
      ih ⟨applyEnv script.env st.ambient,
        st.rows ++ [buildRow script.name (keys.map fun k => lookupD ex k "")
          rp ep out err],
        st.warnings⟩
    refine ⟨amb3,
      buildRow script.name (keys.map fun k => lookupD ex k "") rp ep out err
        :: rows', ?_, by simpa using hlen, ?_⟩
    · simp only [processSweeps]
      rw [hrun]
      simpa [List.append_assoc] using hrec
    · intro r hr
      rcases List.mem_cons.mp hr with heq | htl
      · obtain ⟨t, ht⟩ := buildRow_shape script.name
          (keys.map fun k => lookupD ex k "") rp ep out err
        exact ⟨_, by rw [heq, ht]; rfl⟩
      · exact hshape r htl

theorem processScript_finished (exec : ExecOracle)
    (rp ep : List (String × Pattern)) (keys : List String)
    (s : ScriptSpec) (st : MainState) (h : completesAlways exec) :
    ∃ st', processScript exec rp ep keys s st = .finished st' := by
  unfold processScript
  by_cases h1 : s.default_arguments.isEmpty
  · exact ⟨{ st with warnings := st.warnings ++ [noDefaultsWarning s.name] },
      by simp [h1]⟩
  · by_cases h2 : s.extra_arguments.isEmpty
    · obtain ⟨out, err, hrun⟩ := run_script_with_args_ok exec h s.path
        s.default_arguments s.env st.ambient
      refine ⟨{ ambient := applyEnv s.env st.ambient
                rows := st.rows ++
                  [buildRow s.name (List.replicate keys.length "") rp ep out err]
                warnings := st.warnings }, ?_⟩
      simp only [h1, h2, Bool.false_eq_true, if_false, if_true]
      rw [hrun]
    · obtain ⟨amb2, newRows, hps, _, _⟩ :=
        processSweeps_finished exec rp ep keys s h s.extra_arguments st
      refine ⟨⟨amb2, st.rows ++ newRows, st.warnings⟩, ?_⟩
      simp only [h1, h2, Bool.false_eq_true, if_false]
      exact hps

theorem runScripts_finished (exec : ExecOracle)
    (rp ep : List (String × Pattern)) (keys : List String)
    (h : completesAlways exec) :
    ∀ (scripts : List ScriptSpec) (st : MainState),
      ∃ st', runScripts exec rp ep keys scripts st = .finished st' := by
  intro scripts
  induction scripts with
  | nil => exact fun st => ⟨st, rfl⟩
  | cons s rest ih =>
    intro st
    obtain ⟨st2, hs⟩ := processScript_finished exec rp ep keys s st h
    obtain ⟨st3, hr⟩ := ih st2
    exact ⟨st3, by simp only [runScripts]; rw [hs]; exact hr⟩

/-! ## The claims -/

/-- Claim C1 (code bug): the source intends every row to end with an
`Error` cell so that row width equals header width, but when the
captured error text is `None` or empty the code runs
`result_row.extend("")`, which appends the characters of the empty
string, i.e. nothing: the `Error` cell is omitted and the row is one
cell short of the header.  Evaluated here at a failing input: one
script runs successfully with empty stderr; the header has 3 columns,
the emitted row only 2 cells. -/
theorem c1_error_cell_omitted :
    (runMain quietOracle cfg1 []).header = ["Model", "lat", "Error"] ∧
    (runMain quietOracle cfg1 []).rows = [["m", ""]] ∧
    ((runMain quietOracle cfg1 []).rows.map List.length) =
      [(runMain quietOracle cfg1 []).header.length - 1] :=
  ⟨rfl, rfl, rfl⟩

set_option maxRecDepth 8000 in
set_option exponentiation.threshold 2000 in
/-- Claim C2, counterexample: a capture need not be passed through
verbatim even when it does not lexically have the form
digits `.` digits — Python's `re.match(r"^\d+\.\d+$", ...)` also
accepts one trailing newline (the `$` anchor matches just before it),
so the capture `"1.2\n"` is normalized to `"1.2"` instead of being
returned unchanged. -/
theorem c2_counterexample :
    isDecimalCore "1.2\n".data = false ∧
    normalizeValue "1.2\n" ≠ "1.2\n" := by
  constructor
  · decide
  · decide

set_option maxRecDepth 8000 in
set_option exponentiation.threshold 2000 in
/-- Claim C2, amended, scoped to captures of ASCII characters (Python's
`\d` additionally matches non-ASCII Unicode decimal digits, outside
this model): such a capture is reparsed and re-rendered as
`str(round(float(v), 2))` — rounded to two decimal places — if and only
if it matches digits `.` digits optionally followed by one trailing
newline (Python's `$` also matches just before a final newline); every
other ASCII capture is passed through verbatim.  Concretely `"12.345"`
normalizes to `"12.35"` and `"42"` is returned unchanged. -/
theorem c2_normalization :
    (∀ v : String, isAsciiStr v = true → reMatchDecimal v = false →
      normalizeValue v = v) ∧
    (∀ v : String, reMatchDecimal v = true →
      normalizeValue v = pyStr (pyRound2 (nearestDouble (decimalValue v)))) ∧
    normalizeValue "12.345" = "12.35" ∧
    normalizeValue "42" = "42" := by
  refine ⟨?_, ?_, by decide, by decide⟩
  · intro v _ h
    simp [normalizeValue, h]
  · intro v h
    simp [normalizeValue, h]

/-- Witness for the amended C2 at concrete inputs. -/
theorem c2_normalization_witness :
    normalizeValue "abc" = "abc" ∧ normalizeValue "12.345" = "12.35" :=
  ⟨c2_normalization.1 "abc" (by decide) (by decide), c2_normalization.2.2.1⟩

/-- Claim C3, counterexample: the process runner does let an exception
escape its boundary — only `CalledProcessError` is caught, so an
OS-level launch failure (here: the `python` interpreter itself cannot
be found) propagates instead of being normalized into the
failure-outcome shape. -/
theorem c3_counterexample :
    run_script_with_args oserrOracle "script.py" [] [] [] =
      .error "FileNotFoundError: No such file or directory: 'python'" := rfl

/-- Claim C3, amended: whenever the spawn itself succeeds, no exception
escapes: a zero exit yields `(stdout, stderr)` and any non-zero exit is
normalized into the failure-outcome shape `(None, stderr)` carrying the
captured error text, so such a failure surfaces as a report row; only
OS-level launch failures (missing interpreter, permission error while
spawning) propagate as exceptions. -/
theorem c3_no_throw_on_completion (exec : ExecOracle) (p : String)
    (args : List String) (env : List (String × String)) (amb : Env)
    (code : Nat) (out err : String)
    (hx : exec p args (applyEnv env amb) = .completed code out err) :
    run_script_with_args exec p args env amb =
      .ok ((if code = 0 then some out else none, some err), applyEnv env amb) := by
  simp only [run_script_with_args]
  rw [hx]
  by_cases hc : code = 0 <;> simp [hc]

/-- Witness for the amended C3 at a concrete completed execution. -/
theorem c3_no_throw_on_completion_witness :
    run_script_with_args noopOracle "p" [] [] [] =
      .ok ((some "", some ""), []) := by
  simpa using c3_no_throw_on_completion noopOracle "p" [] [] [] 0 "" "" rfl

/-- Claim C4, counterexample: the environment overlay is not scoped to
the call — `os.environ[key] = value` survives the call, so after
`run_script_with_args` returns, the ambient environment (empty before
the call) contains the overlay entry. -/
theorem c4_counterexample :
    run_script_with_args noopOracle "p" [] [("K", "V")] [] =
      .ok ((some "", some ""), [("K", "V")]) ∧
    ([("K", "V")] : Env) ≠ ([] : Env) := by
  constructor
  · rfl
  · decide

/-- Claim C4, amended: the overlay is written into the ambient process
environment and persists after `run_script_with_args` returns: when the
spawn completes, the resulting ambient environment is exactly the old
one updated with every overlay entry (later executions therefore see
one script's entries until they are overwritten), and keys outside the
overlay keep their previous values. -/
theorem c4_env_mutation_persists (exec : ExecOracle) (p : String)
    (args : List String) (env : List (String × String)) (amb : Env)
    (code : Nat) (out err : String)
    (hx : exec p args (applyEnv env amb) = .completed code out err)
    (hnd : (env.map Prod.fst).Nodup) :
    (∃ res, run_script_with_args exec p args env amb =
      .ok (res, applyEnv env amb)) ∧
    (∀ kv ∈ env, envGet (applyEnv env amb) kv.1 = some kv.2) ∧
    (∀ k, (∀ kv ∈ env, kv.1 ≠ k) →
      envGet (applyEnv env amb) k = envGet amb k) := by
  refine ⟨?_, ?_, ?_⟩
  · refine ⟨(if code = 0 then some out else none, some err), ?_⟩
    simp only [run_script_with_args]
    rw [hx]
    by_cases hc : code = 0 <;> simp [hc]
  · exact fun kv hkv => applyEnv_get_mem env amb kv hkv hnd
  · exact fun k hk => applyEnv_get_not_mem env amb k hk

/-- Witness for the amended C4: a one-entry overlay over an empty
ambient environment. -/
theorem c4_env_mutation_persists_witness :
    (∃ res, run_script_with_args noopOracle "p" [] [("K", "V")] [] =
      .ok (res, applyEnv [("K", "V")] [])) ∧
    (∀ kv ∈ [("K", "V")], envGet (applyEnv [("K", "V")] []) kv.1 = some kv.2) ∧
    (∀ k, (∀ kv ∈ [("K", "V")], kv.1 ≠ k) →
      envGet (applyEnv [("K", "V")] []) k = envGet [] k) :=
  c4_env_mutation_persists noopOracle "p" [] [("K", "V")] [] 0 "" "" rfl
    (by decide)

/-- Claim C5: the report header is `["Model"]`, then the sorted union
of all `extra_arguments` keys across all scripts, then the result
pattern names in configured order, then `["Error"]`; it is a function
of the configuration alone (the right-hand side does not mention the
execution oracle, so no column can depend on or be added by any
execution), the dynamic keys are sorted and duplicate-free, and a key
appears exactly when some script's extra-argument set contains it. -/
theorem c5_header_schema (exec : ExecOracle) (cfg : Config) (amb : Env) :
    (runMain exec cfg amb).header =
      ["Model"] ++ sortedExtraKeys cfg.scripts ++
        cfg.result_patterns.map Prod.fst ++ ["Error"] ∧
    (sortedExtraKeys cfg.scripts).Sorted (fun a b => a ≤ b) ∧
    (sortedExtraKeys cfg.scripts).Nodup ∧
    ∀ k, k ∈ sortedExtraKeys cfg.scripts ↔
      ∃ s ∈ cfg.scripts, ∃ ex ∈ s.extra_arguments, ∃ kv ∈ ex, kv.1 = k := by
  refine ⟨?_, ?_, ?_, ?_⟩
  · rcases hr : runScripts exec cfg.result_patterns cfg.error_patterns
      (sortedExtraKeys cfg.scripts) cfg.scripts ⟨amb, [], []⟩ with st | ⟨m, st⟩ <;>
      simp [runMain, hr]
  · exact List.sorted_insertionSort (fun a b => a ≤ b) _
  · exact ((List.perm_insertionSort (fun a b => a ≤ b) _).nodup_iff).mpr
      (List.nodup_dedup _)
  · intro k
    unfold sortedExtraKeys
    rw [List.mem_insertionSort, List.mem_dedup]
    simp [List.mem_flatMap, List.mem_map]

/-- Claim C6: for a script with non-empty `default_arguments` (and
provided every spawn completes, so the loop is not aborted by an
uncaught launch exception), processing the script appends exactly one
row when its `extra_arguments` list is empty — a row whose
dynamic-argument cells are all the empty string — and exactly `n` rows
when the list has length `n > 0`, each row carrying the script's name
in the `Model` column. -/
theorem c6_row_counts (exec : ExecOracle) (rp ep : List (String × Pattern))
    (keys : List String) (s : ScriptSpec) (st : MainState)
    (hex : completesAlways exec) (hd : s.default_arguments ≠ []) :
    ∃ amb2 newRows,
      processScript exec rp ep keys s st =
        .finished ⟨amb2, st.rows ++ newRows, st.warnings⟩ ∧
      (s.extra_arguments = [] →
        newRows.length = 1 ∧
        ∃ t, newRows = [(s.name :: List.replicate keys.length "") ++ t]) ∧
      (s.extra_arguments ≠ [] →
        newRows.length = s.extra_arguments.length ∧
        ∀ r ∈ newRows, ∃ t, r = s.name :: t) := by
  have h1 : s.default_arguments.isEmpty = false := by
    cases hh : s.default_arguments
    · exact absurd hh hd
    · rfl
  by_cases h2 : s.extra_arguments = []
  · obtain ⟨out, err, hrun⟩ := run_script_with_args_ok exec hex s.path
      s.default_arguments s.env st.ambient
    refine ⟨applyEnv s.env st.ambient,
      [buildRow s.name (List.replicate keys.length "") rp ep out err],
      ?_, ?_, fun hc => absurd h2 hc⟩
    · unfold processScript
      simp only [h1, h2, List.isEmpty_nil, Bool.false_eq_true, if_false, if_true]
      rw [hrun]
    · intro _
      obtain ⟨t, ht⟩ := buildRow_shape s.name (List.replicate keys.length "")
        rp ep out err
      exact ⟨rfl, t, by rw [ht]⟩
  · obtain ⟨amb2, newRows, hps, hlen, hshape⟩ :=
      processSweeps_finished exec rp ep keys s hex s.extra_arguments st
    have h2' : s.extra_arguments.isEmpty = false := by
      cases hh : s.extra_arguments
      · exact absurd hh h2
      · rfl
    refine ⟨amb2, newRows, ?_, fun hc => absurd hc h2, fun _ => ⟨hlen, hshape⟩⟩
    unfold processScript
    simp only [h1, h2', Bool.false_eq_true, if_false]
    exact hps

/-- A two-sweep-point script used to witness C6. -/
def sweepScript : ScriptSpec :=
  ⟨"bench1", "./bench.sh", ["--mode", "fast"],
    [[("threads", "4")], [("threads", "8")]], []⟩

/-- Witness for C6 at a concrete script with two sweep points. -/
theorem c6_row_counts_witness :
    ∃ amb2 newRows,
      processScript noopOracle [] [] ["threads"] sweepScript ⟨[], [], []⟩ =
        .finished ⟨amb2, ([] : List (List String)) ++ newRows, []⟩ ∧
      (sweepScript.extra_arguments = [] →
        newRows.length = 1 ∧
        ∃ t, newRows = [("bench1" :: List.replicate 1 "") ++ t]) ∧
      (sweepScript.extra_arguments ≠ [] →
        newRows.length = sweepScript.extra_arguments.length ∧
        ∀ r ∈ newRows, ∃ t, r = "bench1" :: t) :=
  c6_row_counts noopOracle [] [] ["threads"] sweepScript ⟨[], [], []⟩
    (fun _ _ _ => rfl) (by decide)

/-- Claim C7: a script whose `default_arguments` list is empty is
skipped entirely: processing the remaining scripts continues from an
unchanged state except that the warning is logged — in particular the
skipped script contributes no rows, no execution, and no environment
change, and the rest of the run (including the final report) is
exactly the run without it. -/
theorem c7_skip_no_defaults (exec : ExecOracle)
    (rp ep : List (String × Pattern)) (keys : List String)
    (s : ScriptSpec) (rest : List ScriptSpec) (st : MainState)
    (h : s.default_arguments = []) :
    runScripts exec rp ep keys (s :: rest) st =
      runScripts exec rp ep keys rest
        { st with warnings := st.warnings ++ [noDefaultsWarning s.name] } := by
  have hempty : s.default_arguments.isEmpty = true := by simp [h]
  simp only [runScripts, processScript, hempty, if_true]

/-- A script with no default arguments, used to witness C7. -/
def skipScript : ScriptSpec := ⟨"s0", "p0", [], [], []⟩

/-- Witness for C7 at a concrete script without default arguments. -/
theorem c7_skip_no_defaults_witness :
    runScripts noopOracle [] [] [] [skipScript] ⟨[], [], []⟩ =
      runScripts noopOracle [] [] [] []
        ⟨[], [], [noDefaultsWarning "s0"]⟩ :=
  c7_skip_no_defaults noopOracle [] [] [] skipScript [] ⟨[], [], []⟩ rfl

/-- Claim C8, counterexample: a non-zero exit status is not reserved
for configuration load failure — with both documents loading fine, an
OS-level launch failure (missing `python` interpreter) escapes `main`
and the command exits with status 1. -/
theorem c8_counterexample :
    (runTop oserrOracle (.ok cfg1) []).2 = 1 := rfl

/-- Claim C8, amended: the exit status is 0 on completion regardless of
how many executions exited non-zero (those are recorded as report
rows), and it is non-zero for a configuration load failure; but it is
also non-zero when an OS-level launch failure aborts the loop, so
completion additionally requires that every spawn completes. -/
theorem c8_exit_status (exec : ExecOracle) (amb : Env) :
    (∀ m : String, (runTop exec (.error m) amb).2 = 1) ∧
    (∀ cfg : Config, completesAlways exec →
      (runTop exec (.ok cfg) amb).2 = 0) := by
  constructor
  · intro m
    rfl
  · intro cfg h
    obtain ⟨st', hr⟩ := runScripts_finished exec cfg.result_patterns
      cfg.error_patterns (sortedExtraKeys cfg.scripts) h cfg.scripts ⟨amb, [], []⟩
    simp [runTop, runMain, hr]

/-- Witness for the amended C8: a failed load exits 1; a completed run
with an always-failing-but-spawnable script still exits 0. -/
theorem c8_exit_status_witness :
    (runTop noopOracle (.error "ValueError: Expecting value") []).2 = 1 ∧
    (runTop noopOracle (.ok cfg1) []).2 = 0 :=
  ⟨(c8_exit_status noopOracle []).1 "ValueError: Expecting value",
    (c8_exit_status noopOracle []).2 cfg1 (fun _ _ _ => rfl)⟩

/-- Claim C9: for every sweep point, the concrete argument vector is
the default arguments followed by, for each key/value pair of the set
in iteration order, the flag token `--<key>` and then the value token,
except that an empty value contributes only the flag token; the
defaults are a shared, unmodified first segment of every sweep's
vector. -/
theorem c9_argument_expansion :
    ∀ (defaults : List String) (extra : List (String × String)),
      buildArguments defaults extra =
        defaults ++ extra.flatMap
          (fun kv => ("--" ++ kv.1) :: if kv.2 = "" then [] else [kv.2]) := by
  intro defaults extra
  induction extra generalizing defaults with
  | nil => simp [buildArguments]
  | cons kv rest ih =>
    have step : buildArguments defaults (kv :: rest) =
        buildArguments
          (defaults ++ (("--" ++ kv.1) :: if kv.2 = "" then [] else [kv.2]))
          rest := by
      simp only [buildArguments, List.foldl_cons]
      by_cases h : kv.2 = "" <;> simp [h]
    rw [step, ih, List.flatMap_cons, List.append_assoc]

/-- Claim C10: an execution that exits with status zero but writes
non-empty text to stderr still has the error patterns applied to that
stderr: the runner returns `(stdout, stderr)` as a success, and the
assembled row ends with an `Error` cell holding the joined matches of
the error patterns over that stderr text (so a populated `Error` cell
does not imply a non-zero exit). -/
theorem c10_error_patterns_on_success (exec : ExecOracle) (p : String)
    (args : List String) (env : List (String × String)) (amb : Env)
    (out err : String) (name : String) (extraRow : List String)
    (rp ep : List (String × Pattern))
    (hx : exec p args (applyEnv env amb) = .completed 0 out err)
    (he : err ≠ "") :
    run_script_with_args exec p args env amb =
      .ok ((some out, some err), applyEnv env amb) ∧
    ∃ pre, pre.length = 1 + extraRow.length + rp.length ∧
      buildRow name extraRow rp ep (some out) (some err) =
        pre ++ [errorJoin (parse_output err ep)] := by
  constructor
  · simp only [run_script_with_args]
    rw [hx]
    simp
  · have htr : strOptTruthy (some err) = true := by
      have : err.isEmpty = false := by
        cases hb : err.isEmpty
        · rfl
        · exact absurd ((String.isEmpty_iff err).mp hb) he
      simp [strOptTruthy, this]
    refine ⟨(if strOptTruthy (some out) then
        (name :: extraRow) ++
          rp.map (fun pt => lookupD (parse_output out rp) pt.1 "")
      else (name :: extraRow) ++ List.replicate rp.length ""), ?_, ?_⟩
    · by_cases ho : strOptTruthy (some out) <;> simp [ho] <;> omega
    · simp only [buildRow, htr, if_true, Option.getD_some]

/-- An oracle modelling a benchmark that succeeds but warns on stderr,
used to witness C10. -/
def oomOracle : ExecOracle := fun _ _ _ => .completed 0 "ok" "OOM: boom"

/-- One abstract error pattern used to witness C10. -/
def oomPatterns : List (String × Pattern) := [("oom", fun _ => some "boom")]

/-- Witness for C10 at a concrete zero-exit execution with non-empty
stderr. -/
theorem c10_error_patterns_on_success_witness :
    run_script_with_args oomOracle "p" [] [] [] =
      .ok ((some "ok", some "OOM: boom"), applyEnv [] []) ∧
    ∃ pre, pre.length = 1 + ([] : List String).length +
        ([] : List (String × Pattern)).length ∧
      buildRow "m" [] [] oomPatterns (some "ok") (some "OOM: boom") =
        pre ++ [errorJoin (parse_output "OOM: boom" oomPatterns)] :=
  c10_error_patterns_on_success oomOracle "p" [] [] [] "ok" "OOM: boom"
    "m" [] [] oomPatterns rfl (by decide)

end RunScripts
